import Mathlib

/-!
Verification of the tennis-data match-charting decoder
(`tdata/match_charting/shot_sequence.py`) and of the bulk match-loading
loop (`tdata/datasets/dataset.py::Dataset.turn_into_matches`).

Codes are embedded as `List Char`; Python exceptions become an explicit
error type threaded through `Except`.  The files `serve.py`, `rally.py`,
`enums.py`, `exceptions.py` and `parsed_string_score.py` are not part of
the sources being verified; the aspects of them the decoder relies on are
modelled from the specification and marked as such in their doc comments.
-/

namespace TData

/-- Whitespace characters removed by Python's `str.strip()`: the Unicode
whitespace set of `str.isspace()` (CPython: 0x09-0x0d, 0x1c-0x1f, the
space 0x20, 0x85, 0xa0, 0x1680, 0x2000-0x200a, 0x2028, 0x2029, 0x202f,
0x205f and 0x3000). -/
def isPySpace (c : Char) : Bool :=
  decide (0x09 ≤ c.toNat ∧ c.toNat ≤ 0x0d) ||
  decide (0x1c ≤ c.toNat ∧ c.toNat ≤ 0x20) ||
  decide (c.toNat = 0x85) ||
  decide (c.toNat = 0xa0) ||
  decide (c.toNat = 0x1680) ||
  decide (0x2000 ≤ c.toNat ∧ c.toNat ≤ 0x200a) ||
  decide (c.toNat = 0x2028) ||
  decide (c.toNat = 0x2029) ||
  decide (c.toNat = 0x202f) ||
  decide (c.toNat = 0x205f) ||
  decide (c.toNat = 0x3000)

/-- Remove trailing whitespace. -/
def dropTrail (l : List Char) : List Char :=
  (l.reverse.dropWhile isPySpace).reverse

/-- Python's `str.strip()`: remove leading and trailing whitespace. -/
def stripChars (l : List Char) : List Char :=
  dropTrail (l.dropWhile isPySpace)

/-- Modelled from the spec: `tdata/match_charting/enums.py` (`FaultEnum`) is
not among the sources.  Spec section 3 lists the fault kinds
net / wide / long / foot-fault, each denoted by one letter of the
fault-kind alphabet (section 6). -/
inductive FaultEnum where
  | net
  | wide
  | long
  | foot_fault
  deriving DecidableEq, Repr

/-- The single character denoting each fault kind. -/
def FaultEnum.value : FaultEnum → Char
  | .net => 'n'
  | .wide => 'w'
  | .long => 'd'
  | .foot_fault => 'g'

/-- `[x.value for x in FaultEnum]` as computed in `ShotSequence.from_code`. -/
def possible_faults : List Char :=
  [FaultEnum.net.value, FaultEnum.wide.value, FaultEnum.long.value,
   FaultEnum.foot_fault.value]

/-- The fault kind denoted by a character, if any. -/
def faultOfChar (c : Char) : Option FaultEnum :=
  if c = 'n' then some .net
  else if c = 'w' then some .wide
  else if c = 'd' then some .long
  else if c = 'g' then some .foot_fault
  else none

/-- The failures decoding can signal.  `unknownCode` models
`CodeParsingException` raised on an unrecognized character
(spec section 7, UnknownCode); `malformedSequence` the structural failures
(MalformedSequence); `missingServe` the fully-coded branch reached with an
empty serve code (MissingRequiredServe); `attributeError` Python's failure
when `second_code` is `None` and `.strip()` is called on it;
`assertionError` the assert in `ShotSequence.__init__`. -/
inductive DecodeError where
  | unknownCode (message : String)
  | malformedSequence (message : String)
  | missingServe
  | attributeError
  | assertionError
  deriving DecidableEq, Repr

/-- Modelled from the spec: `tdata/match_charting/shot.py` is not among the
sources.  Spec section 3: one hit in a rally, with the hitting player, a
shot-type character and trailing modifier characters. -/
structure Shot where
  player : String
  shot_type : Char
  modifiers : List Char
  deriving DecidableEq, Repr

/-- Modelled from the spec: the shot-type alphabet (spec section 6, exact
table left open by the spec) — single letters, disjoint from the modifier
characters. -/
def shot_type_chars : List Char :=
  ['f', 'b', 'r', 's', 'v', 'z', 'o', 'p', 'u', 'y', 'l', 'm', 'h', 'i',
   'j', 'k', 't', 'q']

/-- Modelled from the spec: modifier characters a shot token may carry after
its shot-type letter — a direction digit and depth/outcome letters
(spec section 4.2). -/
def modifier_chars : List Char :=
  ['1', '2', '3', '4', '5', '6', '7', '8', '9', '@', '#', '*', 'n', 'w',
   'd', 'x', '+', '-', '=', ';']

/-- Modelled from the spec, section 4.2: repeatedly strip one shot token
(a shot-type character followed by zero or more modifier characters) from
the front of the code; hitters alternate, starting from the returner.  The
fuel argument bounds the recursion; each step consumes at least one
character, so fuel equal to the code length never runs out. -/
def decode_shots : Nat → List Char → String → String →
    Except DecodeError (List Shot)
  | _, [], _, _ => Except.ok []
  | 0, _ :: _, _, _ =>
      Except.error (DecodeError.malformedSequence "rally decoding stalled")
  | Nat.succ fuel, c :: rest, hitter, other =>
      if c ∈ shot_type_chars then
        let mods := rest.takeWhile (fun m => m ∈ modifier_chars)
        let rest2 := rest.dropWhile (fun m => m ∈ modifier_chars)
        match decode_shots fuel rest2 other hitter with
        | Except.ok shots => Except.ok (Shot.mk hitter c mods :: shots)
        | Except.error e => Except.error e
      else
        Except.error
          (DecodeError.unknownCode ("Unknown shot code: " ++ String.mk [c]))

/-- Modelled from the spec: `tdata/match_charting/rally.py` is not among the
sources.  Spec section 3: an ordered sequence of shots. -/
structure Rally where
  shots : List Shot
  deriving DecidableEq, Repr

/-- Modelled from the spec, section 4.2: `Rally.from_code` decodes the whole
remaining code into shots, alternating hitters starting from the
returner. -/
def Rally.from_code (code : List Char) (server returner : String) :
    Except DecodeError Rally :=
  match decode_shots code.length code returner server with
  | Except.ok shots => Except.ok (Rally.mk shots)
  | Except.error e => Except.error e

/-- Modelled from the spec: `tdata/match_charting/serve.py` is not among the
sources.  Spec section 3: a serve attempt with its raw code, server, first
or second flag, fault classification (none when in play) and direction
(none when unknown); `rally_follows` records whether the serve was put in
play with continuation. -/
structure Serve where
  server : String
  is_first : Bool
  raw_code : List Char
  fault_kind : Option FaultEnum
  direction : Option Nat
  rally_follows : Bool
  deriving DecidableEq, Repr

/-- Spec section 4.3: a serve is a fault when its fault kind is set. -/
def Serve.was_fault (s : Serve) : Bool :=
  s.fault_kind.isSome

/-- Spec section 4.3: the serve was put in play by a means that allows
further shots. -/
def Serve.had_rally (s : Serve) : Bool :=
  !s.fault_kind.isSome && s.rally_follows

/-- Modelled from the spec, section 4.3: strip a leading direction digit
('0' means unknown direction); if the next character is a fault-kind
letter, classify as a fault of that kind and stop; a bare fault-kind
letter with no digit is an unknown-direction fault; otherwise the serve is
in play and the characters after the digit are the rally input (empty
means the point ended on the serve, e.g. an ace).  An empty code is the
MissingRequiredServe failure of spec section 7; an unrecognized leading
character is an UnknownCode failure (section 4.1). -/
def Serve.from_code (code : List Char) (server : String) (is_first : Bool) :
    Except DecodeError (Serve × List Char) :=
  match code with
  | [] => Except.error DecodeError.missingServe
  | c :: rest =>
      if c.isDigit then
        let dir : Option Nat := if c = '0' then none else some (c.toNat - 48)
        match rest with
        | [] => Except.ok (Serve.mk server is_first code none dir false, [])
        | f :: rest2 =>
            match faultOfChar f with
            | some k =>
                Except.ok (Serve.mk server is_first code (some k) dir false,
                           rest2)
            | none =>
                Except.ok (Serve.mk server is_first code none dir true,
                           f :: rest2)
      else
        match faultOfChar c with
        | some k =>
            Except.ok (Serve.mk server is_first code (some k) none false, rest)
        | none =>
            Except.error
              (DecodeError.unknownCode
                ("Unknown serve code: " ++ String.mk [c]))

/-- The point-level narrative (`shot_sequence.py`, `ShotSequence`). -/
structure ShotSequence where
  server : String
  returner : String
  server_won : Bool
  first_serve : Option Serve
  second_serve : Option Serve
  rally : Option Rally
  not_coded : Bool
  server_lost_outright : Bool
  server_won_outright : Bool
  deriving DecidableEq, Repr

/-- The condition asserted by `ShotSequence.__init__`
(`shot_sequence.py` lines 17-20). -/
def ShotSequence.invariant_holds (s : ShotSequence) : Bool :=
  s.not_coded || s.server_lost_outright || s.server_won_outright ||
    s.first_serve.isSome

/-- `ShotSequence.__init__`: constructs the value, failing with an
assertion error when the constructor's assert does not hold. -/
def ShotSequence.init (server returner : String) (server_won : Bool)
    (first_serve second_serve : Option Serve) (rally : Option Rally)
    (not_coded server_lost_outright server_won_outright : Bool) :
    Except DecodeError ShotSequence :=
  if not_coded || server_lost_outright || server_won_outright ||
      first_serve.isSome then
    Except.ok
      (ShotSequence.mk server returner server_won first_serve second_serve
        rally not_coded server_lost_outright server_won_outright)
  else
    Except.error DecodeError.assertionError

/-- The tail of `ShotSequence.from_code` (`shot_sequence.py` lines 79-104):
decode the first serve, branch on whether it faulted (decoding the
stripped second code as the second serve when it did — stripping a `None`
second code is Python's attribute error), decode a rally after the
terminating serve when it had one, and construct the result. -/
def ShotSequence.from_code_full (server returner : String) (server_won : Bool)
    (first_code : List Char) (second_code : Option (List Char)) :
    Except DecodeError ShotSequence :=
  match Serve.from_code first_code server true with
  | Except.error e => Except.error e
  | Except.ok (first_serve, remaining_code) =>
      if first_serve.was_fault then
        match second_code with
        | none => Except.error DecodeError.attributeError
        | some sc =>
            match Serve.from_code (stripChars sc) server false with
            | Except.error e => Except.error e
            | Except.ok (second_serve, remaining_code2) =>
                if second_serve.had_rally then
                  match Rally.from_code remaining_code2 server returner with
                  | Except.error e => Except.error e
                  | Except.ok rally =>
                      ShotSequence.init server returner server_won
                        (some first_serve) (some second_serve) (some rally)
                        false false false
                else
                  ShotSequence.init server returner server_won
                    (some first_serve) (some second_serve) none
                    false false false
      else
        if first_serve.had_rally then
          match Rally.from_code remaining_code server returner with
          | Except.error e => Except.error e
          | Except.ok rally =>
              ShotSequence.init server returner server_won
                (some first_serve) none (some rally) false false false
        else
          ShotSequence.init server returner server_won
            (some first_serve) none none false false false

/-- `ShotSequence.from_code` (`shot_sequence.py` lines 43-104): strip the
first code; a single character is dispatched to the shortcut variants
('S'/'R' not coded, 'P' server lost outright, 'Q' server won outright), or,
when it is a fault-kind letter, prefixed with the unknown-direction digit
'0' and decoded fully; any other single character raises the unknown-code
failure naming it; longer (or empty) codes are decoded fully. -/
def ShotSequence.from_code (server returner : String) (server_won : Bool)
    (first_code : List Char) (second_code : Option (List Char)) :
    Except DecodeError ShotSequence :=
  match stripChars first_code with
  | [c] =>
      if c = 'S' ∨ c = 'R' then
        ShotSequence.init server returner server_won none none none
          true false false
      else if c = 'P' then
        ShotSequence.init server returner server_won none none none
          false true false
      else if c = 'Q' then
        ShotSequence.init server returner server_won none none none
          false false true
      else if c ∈ possible_faults then
        ShotSequence.from_code_full server returner server_won
          ['0', c] second_code
      else
        Except.error
          (DecodeError.unknownCode
            ("Unknown single-character code: " ++ String.mk [c]))
  | fc => ShotSequence.from_code_full server returner server_won fc second_code

/-! ### The bulk match-loading loop (`tdata/datasets/dataset.py`) -/

/-- The failure raised by the score parser on a malformed score string
(`parsed_string_score.py`, not among the sources). -/
structure BadFormattingException where
  message : String
  deriving DecidableEq, Repr

/-- Modelled from the spec: `parsed_string_score.py` is not among the
sources.  Spec section 6 only requires that the score component validates
set/game structure; the loading loop reads its list of sets. -/
structure ParsedStringScore where
  sets : List (Nat × Nat)
  deriving DecidableEq, Repr

/-- One record of the DataFrame consumed by `Dataset.turn_into_matches`:
the fields the loop reads.  `surface` and `odds_winner` model the presence
or absence of those keys in the row. -/
structure Row where
  winner : String
  loser : String
  score : String
  start_date : Nat
  tournament_name : String
  round_number : Nat
  surface : Option String
  odds_winner : Option Int
  winner_odds : Int
  loser_odds : Int
  deriving DecidableEq, Repr

/-- The match object built by the loop (`tdata/datasets/match.py`, not among
the sources): a record of the arguments `turn_into_matches` passes to its
constructor.  `Stats` abstracts the per-match statistics, computed by the
subclass hook `calculate_stats`. -/
structure CompletedMatch (Stats : Type) where
  p1 : String
  p2 : String
  date : Nat
  winner : String
  stats : Stats
  tournament_name : String
  surface : Option String
  tournament_round : Nat
  odds : Option (Int × Int)
  score : ParsedStringScore
  deriving DecidableEq, Repr

/-- `Dataset.turn_into_matches` (`dataset.py` lines 167-206), parametrized
by the score parser (`ParsedStringScore`, not among the sources) and the
abstract `calculate_stats` hook: for each row, compute the stats, parse
the score — a `BadFormattingException` skips the row — skip rows whose
score has fewer than two sets, and otherwise yield a `CompletedMatch`
built from the row. -/
def turn_into_matches {Stats : Type}
    (parse_score : String → String → String →
      Except BadFormattingException ParsedStringScore)
    (calculate_stats : String → String → Row → Stats) :
    List Row → List (CompletedMatch Stats)
  | [] => []
  | row :: rest =>
      let tail := turn_into_matches parse_score calculate_stats rest
      let stats := calculate_stats row.winner row.loser row
      match parse_score row.score row.winner row.loser with
      | Except.error _ => tail
      | Except.ok score =>
          if score.sets.length < 2 then tail
          else
            CompletedMatch.mk row.winner row.loser row.start_date row.winner
              stats row.tournament_name row.surface row.round_number
              (match row.odds_winner with
               | some _ => some (row.winner_odds, row.loser_odds)
               | none => none)
              score :: tail

/-! ### Lemmas about stripping -/

lemma head_of_dropWhile_false :
    ∀ (l : List Char) (a : Char) (t : List Char),
      l.dropWhile isPySpace = a :: t → isPySpace a = false := by
  intro l
  induction l with
  | nil => intro a t h; simp [List.dropWhile] at h
  | cons c rest ih =>
      intro a t h
      by_cases hc : isPySpace c
      · rw [List.dropWhile_cons_of_pos hc] at h
        exact ih a t h
      · rw [List.dropWhile_cons_of_neg hc] at h
        injection h with h1 _
        subst h1
        simpa using hc

lemma dropWhile_space_idem (l : List Char) :
    (l.dropWhile isPySpace).dropWhile isPySpace = l.dropWhile isPySpace := by
  cases h : l.dropWhile isPySpace with
  | nil => simp
  | cons a t =>
      rw [List.dropWhile_cons_of_neg]
      simp [head_of_dropWhile_false l a t h]

lemma dropTrail_append {x w : List Char} (h : ∀ c ∈ w, isPySpace c = true) :
    dropTrail (x ++ w) = dropTrail x := by
  unfold dropTrail
  rw [List.reverse_append, List.dropWhile_append_of_pos]
  intro a ha
  exact h a (List.mem_reverse.mp ha)

lemma dropWhile_space_of_all {w : List Char} (h : ∀ c ∈ w, isPySpace c = true) :
    w.dropWhile isPySpace = [] :=
  List.dropWhile_eq_nil_iff.mpr h

lemma stripChars_pad (w1 w2 l : List Char)
    (h1 : ∀ c ∈ w1, isPySpace c = true) (h2 : ∀ c ∈ w2, isPySpace c = true) :
    stripChars (w1 ++ l ++ w2) = stripChars l := by
  unfold stripChars
  rw [List.append_assoc, List.dropWhile_append_of_pos h1, List.dropWhile_append]
  by_cases hnil : (l.dropWhile isPySpace).isEmpty
  · rw [if_pos hnil, dropWhile_space_of_all h2]
    rw [List.isEmpty_iff] at hnil
    rw [hnil]
  · rw [if_neg hnil, dropTrail_append h2]

lemma dropTrail_idem (x : List Char) : dropTrail (dropTrail x) = dropTrail x := by
  unfold dropTrail
  rw [List.reverse_reverse]
  have : ∀ y : List Char,
      (y.dropWhile isPySpace).dropWhile isPySpace = y.dropWhile isPySpace :=
    dropWhile_space_idem
  rw [this]

lemma stripChars_decomp (l : List Char) :
    ∃ w, stripChars l = dropTrail (l.dropWhile isPySpace) ∧
      l.dropWhile isPySpace = dropTrail (l.dropWhile isPySpace) ++ w ∧
      ∀ c ∈ w, isPySpace c = true := by
  refine ⟨((l.dropWhile isPySpace).reverse.takeWhile isPySpace).reverse, rfl, ?_, ?_⟩
  · conv_lhs => rw [← List.reverse_reverse (l.dropWhile isPySpace)]
    conv_lhs =>
      rw [← List.takeWhile_append_dropWhile isPySpace
            (l.dropWhile isPySpace).reverse]
    rw [List.reverse_append]
    rfl
  · intro c hc
    rw [List.mem_reverse] at hc
    have := List.all_takeWhile (p := isPySpace)
      (l := (l.dropWhile isPySpace).reverse)
    rw [List.all_eq_true] at this
    exact this c hc

lemma stripChars_idem (l : List Char) : stripChars (stripChars l) = stripChars l := by
  obtain ⟨w, hstrip, hdecomp, hw⟩ := stripChars_decomp l
  have hmain : (stripChars l).dropWhile isPySpace = stripChars l := by
    rw [hstrip]
    cases hdt : dropTrail (l.dropWhile isPySpace) with
    | nil => simp
    | cons a t =>
        rw [List.dropWhile_cons_of_neg]
        have hform : l.dropWhile isPySpace = a :: (t ++ w) := by
          rw [hdecomp, hdt]; rfl
        simp [head_of_dropWhile_false l a (t ++ w) hform]
  rw [hstrip] at hmain
  unfold stripChars
  rw [hmain, dropTrail_idem]

/-! ### Dispatch lemmas for `ShotSequence.from_code` -/

lemma from_code_of_strip_single {fc : List Char} {c : Char}
    (h : stripChars fc = [c]) (s r : String) (w : Bool)
    (sc : Option (List Char)) :
    ShotSequence.from_code s r w fc sc =
      (if c = 'S' ∨ c = 'R' then
        Except.ok (ShotSequence.mk s r w none none none true false false)
      else if c = 'P' then
        Except.ok (ShotSequence.mk s r w none none none false true false)
      else if c = 'Q' then
        Except.ok (ShotSequence.mk s r w none none none false false true)
      else if c ∈ possible_faults then
        ShotSequence.from_code_full s r w ['0', c] sc
      else
        Except.error (DecodeError.unknownCode
          ("Unknown single-character code: " ++ String.mk [c]))) := by
  unfold ShotSequence.from_code
  rw [h]
  rfl

lemma from_code_of_strip_nil {fc : List Char} (h : stripChars fc = [])
    (s r : String) (w : Bool) (sc : Option (List Char)) :
    ShotSequence.from_code s r w fc sc =
      ShotSequence.from_code_full s r w [] sc := by
  unfold ShotSequence.from_code
  rw [h]

lemma from_code_of_strip_long {fc : List Char} {a b : Char} {t : List Char}
    (h : stripChars fc = a :: b :: t) (s r : String) (w : Bool)
    (sc : Option (List Char)) :
    ShotSequence.from_code s r w fc sc =
      ShotSequence.from_code_full s r w (a :: b :: t) sc := by
  unfold ShotSequence.from_code
  rw [h]

lemma from_code_strip (s r : String) (w : Bool) (fc : List Char)
    (sc : Option (List Char)) :
    ShotSequence.from_code s r w fc sc =
      ShotSequence.from_code s r w (stripChars fc) sc := by
  unfold ShotSequence.from_code
  rw [stripChars_idem]

/-! ### Lemmas about the serve and rally decoders -/

lemma Serve.from_code_had_rally_remaining {code : List Char} {s : String}
    {b : Bool} {sv : Serve} {rem : List Char}
    (h : Serve.from_code code s b = Except.ok (sv, rem))
    (hr : sv.had_rally = true) : rem ≠ [] := by
  unfold Serve.from_code at h
  repeat' split at h
  all_goals (try simp only [Except.ok.injEq, Prod.mk.injEq] at h)
  all_goals (try (rcases h with ⟨rfl, rfl⟩))
  all_goals simp_all [Serve.had_rally]

lemma serve_decode_ne_assert (code : List Char) (s : String) (b : Bool) :
    Serve.from_code code s b ≠ Except.error DecodeError.assertionError := by
  intro hcontra
  unfold Serve.from_code at hcontra
  repeat' split at hcontra
  all_goals simp_all

lemma decode_shots_ne_assert :
    ∀ (fuel : Nat) (code : List Char) (hitter other : String),
      decode_shots fuel code hitter other ≠
        Except.error DecodeError.assertionError := by
  intro fuel
  induction fuel with
  | zero =>
      intro code hitter other
      cases code <;> simp [decode_shots]
  | succ n ih =>
      intro code hitter other
      cases code with
      | nil => simp [decode_shots]
      | cons c rest =>
          simp only [decode_shots]
          split
          · split
            · simp
            · rename_i e heq
              intro hcontra
              injection hcontra with h1
              subst h1
              exact ih _ _ _ heq
          · simp

lemma rally_decode_ne_assert (code : List Char) (s r : String) :
    Rally.from_code code s r ≠ Except.error DecodeError.assertionError := by
  unfold Rally.from_code
  split
  · simp
  · rename_i e heq
    intro hcontra
    injection hcontra with h1
    subst h1
    exact decode_shots_ne_assert _ _ _ _ heq

lemma decode_shots_cons_ne_nil {fuel : Nat} {c : Char} {rest : List Char}
    {hitter other : String} {l : List Shot}
    (h : decode_shots fuel (c :: rest) hitter other = Except.ok l) :
    l ≠ [] := by
  cases fuel with
  | zero => simp [decode_shots] at h
  | succ n =>
      simp only [decode_shots] at h
      split at h
      · split at h
        · injection h with h1
          subst h1
          simp
        · exact absurd h (by simp)
      · exact absurd h (by simp)

lemma Rally.from_code_ok_ne_nil {code : List Char} {s r : String} {ra : Rally}
    (h : Rally.from_code code s r = Except.ok ra) (hne : code ≠ []) :
    ra.shots ≠ [] := by
  unfold Rally.from_code at h
  cases code with
  | nil => exact absurd rfl hne
  | cons c rest =>
      split at h
      · rename_i shots heq
        injection h with h1
        subst h1
        exact decode_shots_cons_ne_nil heq
      · exact absurd h (by simp)

/-! ### Inversion of the fully coded branch -/

lemma from_code_full_ok_inv {s r : String} {w : Bool} {fc : List Char}
    {sc : Option (List Char)} {ss : ShotSequence}
    (h : ShotSequence.from_code_full s r w fc sc = Except.ok ss) :
    ∃ fs rem, Serve.from_code fc s true = Except.ok (fs, rem) ∧
      ((fs.was_fault = true ∧ ∃ raw s2 rem2,
          sc = some raw ∧
          Serve.from_code (stripChars raw) s false = Except.ok (s2, rem2) ∧
          ((s2.had_rally = true ∧ ∃ ra,
              Rally.from_code rem2 s r = Except.ok ra ∧
              ss = ShotSequence.mk s r w (some fs) (some s2) (some ra)
                false false false) ∨
           (s2.had_rally = false ∧
              ss = ShotSequence.mk s r w (some fs) (some s2) none
                false false false))) ∨
       (fs.was_fault = false ∧
          ((fs.had_rally = true ∧ ∃ ra,
              Rally.from_code rem s r = Except.ok ra ∧
              ss = ShotSequence.mk s r w (some fs) none (some ra)
                false false false) ∨
           (fs.had_rally = false ∧
              ss = ShotSequence.mk s r w (some fs) none none
                false false false)))) := by
  unfold ShotSequence.from_code_full at h
  split at h
  · exact absurd h (by simp)
  rename_i fs rem heq
  refine ⟨fs, rem, heq, ?_⟩
  split at h
  · rename_i hwf
    refine Or.inl ⟨hwf, ?_⟩
    split at h
    · exact absurd h (by simp)
    rename_i raw
    split at h
    · exact absurd h (by simp)
    rename_i s2 rem2 heq2
    refine ⟨raw, s2, rem2, rfl, heq2, ?_⟩
    split at h
    · rename_i hr2
      split at h
      · exact absurd h (by simp)
      rename_i ra heq3
      simp only [ShotSequence.init, Option.isSome_some, Bool.or_true,
        if_pos] at h
      injection h with h1
      exact Or.inl ⟨hr2, ra, heq3, h1.symm⟩
    · rename_i hr2
      simp only [ShotSequence.init, Option.isSome_some, Bool.or_true,
        if_pos] at h
      injection h with h1
      exact Or.inr ⟨Bool.of_not_eq_true hr2, h1.symm⟩
  · rename_i hwf
    refine Or.inr ⟨Bool.of_not_eq_true hwf, ?_⟩
    split at h
    · rename_i hr1
      split at h
      · exact absurd h (by simp)
      rename_i ra heq3
      simp only [ShotSequence.init, Option.isSome_some, Bool.or_true,
        if_pos] at h
      injection h with h1
      exact Or.inl ⟨hr1, ra, heq3, h1.symm⟩
    · rename_i hr1
      simp only [ShotSequence.init, Option.isSome_some, Bool.or_true,
        if_pos] at h
      injection h with h1
      exact Or.inr ⟨Bool.of_not_eq_true hr1, h1.symm⟩

lemma from_code_full_nonfault_eq {s : String} {fc : List Char} {fs : Serve}
    {rem : List Char} (r : String) (w : Bool) (sc : Option (List Char))
    (hserve : Serve.from_code fc s true = Except.ok (fs, rem))
    (hwf : fs.was_fault = false) :
    ShotSequence.from_code_full s r w fc sc =
      (if fs.had_rally then
        match Rally.from_code rem s r with
        | Except.ok ra =>
            Except.ok (ShotSequence.mk s r w (some fs) none (some ra)
              false false false)
        | Except.error e => Except.error e
      else
        Except.ok (ShotSequence.mk s r w (some fs) none none
          false false false)) := by
  unfold ShotSequence.from_code_full
  rw [hserve]
  simp only [hwf, Bool.false_eq_true, if_false]
  by_cases hr : fs.had_rally = true
  · rw [if_pos hr, if_pos hr]
    cases hra : Rally.from_code rem s r with
    | ok ra => simp [ShotSequence.init]
    | error e => rfl
  · rw [if_neg hr, if_neg hr]
    simp [ShotSequence.init]

lemma serve_from_code_bare_fault {c : Char} (hc : c ∈ possible_faults)
    (s : String) (b : Bool) :
    ∃ k, faultOfChar c = some k ∧
      Serve.from_code ['0', c] s b =
        Except.ok (Serve.mk s b ['0', c] (some k) none false, []) := by
  simp only [possible_faults, FaultEnum.value, List.mem_cons,
    List.mem_singleton, List.not_mem_nil, or_false] at hc
  rcases hc with rfl | rfl | rfl | rfl
  · exact ⟨FaultEnum.net, rfl, rfl⟩
  · exact ⟨FaultEnum.wide, rfl, rfl⟩
  · exact ⟨FaultEnum.long, rfl, rfl⟩
  · exact ⟨FaultEnum.foot_fault, rfl, rfl⟩

lemma from_code_full_ne_assert (s r : String) (w : Bool) (fc : List Char)
    (sc : Option (List Char)) :
    ShotSequence.from_code_full s r w fc sc ≠
      Except.error DecodeError.assertionError := by
  intro h
  unfold ShotSequence.from_code_full at h
  repeat' split at h
  all_goals
    first
      | (injection h with h1
         subst h1
         first
           | exact serve_decode_ne_assert _ _ _ (by assumption)
           | exact rally_decode_ne_assert _ _ _ (by assumption))
      | simp [ShotSequence.init] at h

lemma invariant_of_full {s r : String} {w : Bool} {fc : List Char}
    {sc : Option (List Char)} {ss : ShotSequence}
    (h : ShotSequence.from_code_full s r w fc sc = Except.ok ss) :
    ss.invariant_holds = true := by
  obtain ⟨fs, rem, _, hcases⟩ := from_code_full_ok_inv h
  rcases hcases with ⟨_, raw, s2, rem2, _, _, hss⟩ | ⟨_, hss⟩ <;>
    rcases hss with ⟨_, ra, _, rfl⟩ | ⟨_, rfl⟩ <;> rfl

lemma from_code_ok_shapes {s r : String} {w : Bool} {fc : List Char}
    {sc : Option (List Char)} {ss : ShotSequence}
    (h : ShotSequence.from_code s r w fc sc = Except.ok ss) :
    (ss = ShotSequence.mk s r w none none none true false false) ∨
    (ss = ShotSequence.mk s r w none none none false true false) ∨
    (ss = ShotSequence.mk s r w none none none false false true) ∨
    ∃ fc2,
      (∀ sc2, ShotSequence.from_code s r w fc sc2 =
        ShotSequence.from_code_full s r w fc2 sc2) ∧
      ShotSequence.from_code_full s r w fc2 sc = Except.ok ss := by
  cases hst : stripChars fc with
  | nil =>
      rw [from_code_of_strip_nil hst] at h
      exact Or.inr (Or.inr (Or.inr
        ⟨[], fun sc2 => from_code_of_strip_nil hst s r w sc2, h⟩))
  | cons a t =>
      cases t with
      | cons b t2 =>
          rw [from_code_of_strip_long hst] at h
          exact Or.inr (Or.inr (Or.inr
            ⟨a :: b :: t2, fun sc2 => from_code_of_strip_long hst s r w sc2, h⟩))
      | nil =>
          rw [from_code_of_strip_single hst] at h
          by_cases h1 : a = 'S' ∨ a = 'R'
          · rw [if_pos h1] at h
            injection h with h2
            exact Or.inl h2.symm
          · rw [if_neg h1] at h
            by_cases h2 : a = 'P'
            · rw [if_pos h2] at h
              injection h with h3
              exact Or.inr (Or.inl h3.symm)
            · rw [if_neg h2] at h
              by_cases h3 : a = 'Q'
              · rw [if_pos h3] at h
                injection h with h4
                exact Or.inr (Or.inr (Or.inl h4.symm))
              · rw [if_neg h3] at h
                by_cases h4 : a ∈ possible_faults
                · rw [if_pos h4] at h
                  refine Or.inr (Or.inr (Or.inr ⟨['0', a], fun sc2 => ?_, h⟩))
                  rw [from_code_of_strip_single hst, if_neg h1, if_neg h2,
                    if_neg h3, if_pos h4]
                · rw [if_neg h4] at h
                  exact absurd h (by simp)

/-! ### The claims -/

/-- C1: for every server, returner and server_won flag,
`ShotSequence.from_code` on the one-character code 'S' or 'R' returns the
not-coded ShotSequence with no first serve, second serve or rally; 'P'
returns the server-lost-outright one and 'Q' the server-won-outright one;
and in all four cases the result is the same for any two second codes,
which are never consulted. -/
theorem C1_shortcut_codes (server returner : String) (server_won : Bool)
    (sc sc2 : Option (List Char)) :
    (ShotSequence.from_code server returner server_won ['S'] sc =
      Except.ok (ShotSequence.mk server returner server_won none none none
        true false false)) ∧
    (ShotSequence.from_code server returner server_won ['R'] sc =
      Except.ok (ShotSequence.mk server returner server_won none none none
        true false false)) ∧
    (ShotSequence.from_code server returner server_won ['P'] sc =
      Except.ok (ShotSequence.mk server returner server_won none none none
        false true false)) ∧
    (ShotSequence.from_code server returner server_won ['Q'] sc =
      Except.ok (ShotSequence.mk server returner server_won none none none
        false false true)) ∧
    (ShotSequence.from_code server returner server_won ['S'] sc =
      ShotSequence.from_code server returner server_won ['S'] sc2) ∧
    (ShotSequence.from_code server returner server_won ['R'] sc =
      ShotSequence.from_code server returner server_won ['R'] sc2) ∧
    (ShotSequence.from_code server returner server_won ['P'] sc =
      ShotSequence.from_code server returner server_won ['P'] sc2) ∧
    (ShotSequence.from_code server returner server_won ['Q'] sc =
      ShotSequence.from_code server returner server_won ['Q'] sc2) := by
  exact ⟨rfl, rfl, rfl, rfl, rfl, rfl, rfl, rfl⟩

/-- C4 counterexample: the claim quantifies over every one-character
first code that is neither a shortcut letter nor a fault-kind letter, but
a whitespace character is such a code and does not raise the unknown-code
failure naming it: stripping turns it into the empty code, whose decode
fails with the missing-serve failure instead. -/
theorem C4_counterexample :
    ShotSequence.from_code "A" "B" true [' '] none =
      Except.error DecodeError.missingServe ∧
    DecodeError.missingServe ≠
      DecodeError.unknownCode
        ("Unknown single-character code: " ++ String.mk [' ']) := by
  exact ⟨rfl, by simp⟩

/-- C4 (amended): for every one-character first code that is neither a
shortcut letter ('S', 'R', 'P', 'Q') nor a fault-kind letter nor a
whitespace character, `ShotSequence.from_code` fails with the
unknown-code parse failure whose message names the offending character,
and returns no ShotSequence. -/
theorem C4_unknown_single_character (server returner : String)
    (server_won : Bool) (sc : Option (List Char)) (c : Char)
    (hS : c ≠ 'S') (hR : c ≠ 'R') (hP : c ≠ 'P') (hQ : c ≠ 'Q')
    (hf : c ∉ possible_faults) (hw : isPySpace c = false) :
    ShotSequence.from_code server returner server_won [c] sc =
      Except.error (DecodeError.unknownCode
        ("Unknown single-character code: " ++ String.mk [c])) := by
  have hnot : ¬isPySpace c = true := by simp [hw]
  have hstrip : stripChars [c] = [c] := by
    unfold stripChars dropTrail
    rw [List.dropWhile_cons_of_neg hnot]
    simp only [List.reverse_cons, List.reverse_nil, List.nil_append]
    rw [List.dropWhile_cons_of_neg hnot]
    rfl
  rw [from_code_of_strip_single hstrip]
  rw [if_neg (by simp [hS, hR]), if_neg hP, if_neg hQ, if_neg hf]

/-- C4 witness: the unknown single character 'Z'. -/
theorem C4_unknown_single_character_witness :
    ShotSequence.from_code "A" "B" true ['Z'] none =
      Except.error (DecodeError.unknownCode
        ("Unknown single-character code: " ++ String.mk ['Z'])) :=
  C4_unknown_single_character "A" "B" true none 'Z' (by decide) (by decide)
    (by decide) (by decide) (by decide) (by decide)

/-- C5: a one-character first code that is a fault-kind letter is not a
parse failure: decoding continues as the full decode of the code with the
unknown-direction placeholder digit '0' prepended, the first serve is a
fault of that kind with unknown direction, and a second-serve code is then
required (a missing second code is a failure rather than a decoded
point). -/
theorem C5_bare_fault_letter (server returner : String) (server_won : Bool)
    (c : Char) (sc : Option (List Char)) (hc : c ∈ possible_faults) :
    (ShotSequence.from_code server returner server_won [c] sc =
      ShotSequence.from_code_full server returner server_won ['0', c] sc) ∧
    (∃ k, faultOfChar c = some k ∧
      Serve.from_code ['0', c] server true =
        Except.ok (Serve.mk server true ['0', c] (some k) none false, []) ∧
      (Serve.mk server true ['0', c] (some k) none false).was_fault = true) ∧
    (ShotSequence.from_code server returner server_won [c] none =
      Except.error DecodeError.attributeError) := by
  have hne : (∀ x ∈ possible_faults, isPySpace x = false) := by decide
  have hnot : ¬isPySpace c = true := by simp [hne c hc]
  have hstrip : stripChars [c] = [c] := by
    unfold stripChars dropTrail
    rw [List.dropWhile_cons_of_neg hnot]
    simp only [List.reverse_cons, List.reverse_nil, List.nil_append]
    rw [List.dropWhile_cons_of_neg hnot]
    rfl
  have hSRPQ : ¬(c = 'S' ∨ c = 'R') ∧ c ≠ 'P' ∧ c ≠ 'Q' := by
    have hc2 := hc
    simp only [possible_faults, FaultEnum.value, List.mem_cons,
      List.mem_singleton, List.not_mem_nil, or_false] at hc2
    rcases hc2 with rfl | rfl | rfl | rfl <;>
      exact ⟨by decide, by decide, by decide⟩
  obtain ⟨k, hk, hserve⟩ := serve_from_code_bare_fault hc server true
  have hdisp : ∀ sc2, ShotSequence.from_code server returner server_won [c] sc2 =
      ShotSequence.from_code_full server returner server_won ['0', c] sc2 := by
    intro sc2
    rw [from_code_of_strip_single hstrip, if_neg hSRPQ.1, if_neg hSRPQ.2.1,
      if_neg hSRPQ.2.2, if_pos hc]
  refine ⟨hdisp sc, ⟨k, hk, hserve, rfl⟩, ?_⟩
  rw [hdisp none]
  unfold ShotSequence.from_code_full
  rw [hserve]
  rfl

/-- C5 witness: the bare net-fault letter 'n'. -/
theorem C5_bare_fault_letter_witness :
    ShotSequence.from_code "A" "B" true ['n'] none =
      Except.error DecodeError.attributeError :=
  (C5_bare_fault_letter "A" "B" true 'n' none (by decide)).2.2

/-- C6: the constructor assertion of `ShotSequence.__init__` never fails on
any path through `from_code` — no input yields the assertion failure —
and every ShotSequence `from_code` returns satisfies the invariant
not_coded or server_lost_outright or server_won_outright or first serve
present. -/
theorem C6_sequence_never_empty (server returner : String) (server_won : Bool)
    (fc : List Char) (sc : Option (List Char)) :
    (ShotSequence.from_code server returner server_won fc sc ≠
      Except.error DecodeError.assertionError) ∧
    ∀ ss, ShotSequence.from_code server returner server_won fc sc =
      Except.ok ss → ss.invariant_holds = true := by
  constructor
  · cases hst : stripChars fc with
    | nil =>
        rw [from_code_of_strip_nil hst]
        exact from_code_full_ne_assert _ _ _ _ _
    | cons a t =>
        cases t with
        | cons b t2 =>
            rw [from_code_of_strip_long hst]
            exact from_code_full_ne_assert _ _ _ _ _
        | nil =>
            rw [from_code_of_strip_single hst]
            repeat' split
            all_goals
              first
                | exact from_code_full_ne_assert _ _ _ _ _
                | simp
  · intro ss h
    rcases from_code_ok_shapes h with rfl | rfl | rfl | ⟨fc2, _, hfull⟩
    · rfl
    · rfl
    · rfl
    · exact invariant_of_full hfull

/-- C6 witness: the invariant holds on the decode of the shortcut 'S'. -/
theorem C6_sequence_never_empty_witness :
    ShotSequence.invariant_holds
      (ShotSequence.mk "A" "B" true none none none true false false) = true :=
  (C6_sequence_never_empty "A" "B" true ['S'] none).2
    (ShotSequence.mk "A" "B" true none none none true false false) rfl

/-- C2: in every fully coded decode (the result carries a first serve),
a second serve is present exactly when the first serve was classified as a
fault. -/
theorem C2_second_serve_iff_fault (server returner : String)
    (server_won : Bool) (fc : List Char) (sc : Option (List Char))
    (ss : ShotSequence) (fs : Serve)
    (h : ShotSequence.from_code server returner server_won fc sc =
      Except.ok ss)
    (hfs : ss.first_serve = some fs) :
    ss.second_serve.isSome = fs.was_fault := by
  rcases from_code_ok_shapes h with rfl | rfl | rfl | ⟨fc2, _, hfull⟩
  · simp at hfs
  · simp at hfs
  · simp at hfs
  · obtain ⟨fs2, rem, _, hcases⟩ := from_code_full_ok_inv hfull
    rcases hcases with ⟨hwf, raw, s2, rem2, _, _, hss⟩ | ⟨hwf, hss⟩
    · rcases hss with ⟨_, ra, _, rfl⟩ | ⟨_, rfl⟩ <;>
        · simp only [Option.some.injEq] at hfs
          subst hfs
          simp [hwf]
    · rcases hss with ⟨_, ra, _, rfl⟩ | ⟨_, rfl⟩ <;>
        · simp only [Option.some.injEq] at hfs
          subst hfs
          simp [hwf]

/-- C2 witness: first-serve code '4n' (net fault) with second-serve code
'6' yields a sequence with a second serve, matching the fault flag. -/
theorem C2_second_serve_iff_fault_witness :
    (some (Serve.mk "A" false ['6'] none (some 6) false) :
      Option Serve).isSome =
      (Serve.mk "A" true ['4', 'n'] (some FaultEnum.net) (some 4)
        false).was_fault :=
  C2_second_serve_iff_fault "A" "B" true ['4', 'n'] (some ['6'])
    (ShotSequence.mk "A" "B" true
      (some (Serve.mk "A" true ['4', 'n'] (some FaultEnum.net) (some 4) false))
      (some (Serve.mk "A" false ['6'] none (some 6) false)) none
      false false false)
    (Serve.mk "A" true ['4', 'n'] (some FaultEnum.net) (some 4) false)
    rfl rfl

/-- C3: in every decode, the rally is present exactly when the terminating
serve (the second serve when the first faulted, otherwise the first serve)
had a rally, and every rally carried by a decoded ShotSequence is a
non-empty list of shots. -/
theorem C3_rally_iff_had_rally (server returner : String) (server_won : Bool)
    (fc : List Char) (sc : Option (List Char)) (ss : ShotSequence)
    (h : ShotSequence.from_code server returner server_won fc sc =
      Except.ok ss) :
    (∀ fs, ss.first_serve = some fs → fs.was_fault = false →
      ss.rally.isSome = fs.had_rally) ∧
    (∀ s2, ss.second_serve = some s2 → ss.rally.isSome = s2.had_rally) ∧
    (∀ ra, ss.rally = some ra → ra.shots ≠ []) := by
  rcases from_code_ok_shapes h with rfl | rfl | rfl | ⟨fc2, _, hfull⟩
  · exact ⟨by simp, by simp, by simp⟩
  · exact ⟨by simp, by simp, by simp⟩
  · exact ⟨by simp, by simp, by simp⟩
  · obtain ⟨fs2, rem, hserve, hcases⟩ := from_code_full_ok_inv hfull
    rcases hcases with ⟨hwf, raw, s2, rem2, hsc, hserve2, hss⟩ | ⟨hwf, hss⟩
    · rcases hss with ⟨hr2, ra, hra, rfl⟩ | ⟨hr2, rfl⟩
      · refine ⟨?_, ?_, ?_⟩
        · intro fs hfs hwf2
          simp only [Option.some.injEq] at hfs
          subst hfs
          simp [hwf] at hwf2
        · intro s2b hs2
          simp only [Option.some.injEq] at hs2
          subst hs2
          simp [hr2]
        · intro rab hrab
          simp only [Option.some.injEq] at hrab
          subst hrab
          exact Rally.from_code_ok_ne_nil hra
            (Serve.from_code_had_rally_remaining hserve2 hr2)
      · refine ⟨?_, ?_, ?_⟩
        · intro fs hfs hwf2
          simp only [Option.some.injEq] at hfs
          subst hfs
          simp [hwf] at hwf2
        · intro s2b hs2
          simp only [Option.some.injEq] at hs2
          subst hs2
          simp [hr2]
        · intro rab hrab
          simp at hrab
    · rcases hss with ⟨hr1, ra, hra, rfl⟩ | ⟨hr1, rfl⟩
      · refine ⟨?_, ?_, ?_⟩
        · intro fs hfs _
          simp only [Option.some.injEq] at hfs
          subst hfs
          simp [hr1]
        · intro s2b hs2
          simp at hs2
        · intro rab hrab
          simp only [Option.some.injEq] at hrab
          subst hrab
          exact Rally.from_code_ok_ne_nil hra
            (Serve.from_code_had_rally_remaining hserve hr1)
      · refine ⟨?_, ?_, ?_⟩
        · intro fs hfs _
          simp only [Option.some.injEq] at hfs
          subst hfs
          simp [hr1]
        · intro s2b hs2
          simp at hs2
        · intro rab hrab
          simp at hrab

/-- C3 witness: the code '4f' decodes to an in-play first serve with a
one-shot rally, which is non-empty. -/
theorem C3_rally_iff_had_rally_witness :
    (Rally.mk [Shot.mk "B" 'f' []]).shots ≠ [] :=
  (C3_rally_iff_had_rally "A" "B" true ['4', 'f'] none
    (ShotSequence.mk "A" "B" true
      (some (Serve.mk "A" true ['4', 'f'] none (some 4) true)) none
      (some (Rally.mk [Shot.mk "B" 'f' []])) false false false)
    rfl).2.2 (Rally.mk [Shot.mk "B" 'f' []]) rfl

/-- C8: when the decoded first serve is not a fault, the second code is
never consulted: decoding with any other second code (present, absent or
malformed) returns the structurally equal ShotSequence, whose second
serve is absent. -/
theorem C8_second_code_not_consulted (server returner : String)
    (server_won : Bool) (fc : List Char) (sc sc2 : Option (List Char))
    (ss : ShotSequence) (fs : Serve)
    (h : ShotSequence.from_code server returner server_won fc sc =
      Except.ok ss)
    (hfs : ss.first_serve = some fs) (hwf : fs.was_fault = false) :
    ShotSequence.from_code server returner server_won fc sc2 =
      Except.ok ss ∧ ss.second_serve = none := by
  rcases from_code_ok_shapes h with rfl | rfl | rfl | ⟨fc3, hdisp, hfull⟩
  · simp at hfs
  · simp at hfs
  · simp at hfs
  · obtain ⟨fs2, rem, hserve, hcases⟩ := from_code_full_ok_inv hfull
    rcases hcases with ⟨hwf2, _, _, _, _, _, hss⟩ | ⟨hwf2, hss⟩
    · rcases hss with ⟨_, _, _, rfl⟩ | ⟨_, rfl⟩ <;>
        · simp only [Option.some.injEq] at hfs
          subst hfs
          simp [hwf] at hwf2
    · rcases hss with ⟨hr1, ra, hra, rfl⟩ | ⟨hr1, rfl⟩
      · simp only [Option.some.injEq] at hfs
        subst hfs
        refine ⟨?_, rfl⟩
        rw [hdisp sc2,
          from_code_full_nonfault_eq returner server_won sc2 hserve hwf2,
          if_pos hr1, hra]
      · simp only [Option.some.injEq] at hfs
        subst hfs
        refine ⟨?_, rfl⟩
        rw [hdisp sc2,
          from_code_full_nonfault_eq returner server_won sc2 hserve hwf2,
          if_neg (by simp [hr1])]

/-- C8 witness: the in-play code '4f' decodes identically whether the
second code is absent or the garbage 'ZZ'. -/
theorem C8_second_code_not_consulted_witness :
    ShotSequence.from_code "A" "B" true ['4', 'f'] (some ['Z', 'Z']) =
      Except.ok (ShotSequence.mk "A" "B" true
        (some (Serve.mk "A" true ['4', 'f'] none (some 4) true)) none
        (some (Rally.mk [Shot.mk "B" 'f' []])) false false false) ∧
    (ShotSequence.mk "A" "B" true
      (some (Serve.mk "A" true ['4', 'f'] none (some 4) true)) none
      (some (Rally.mk [Shot.mk "B" 'f' []])) false false
      false).second_serve = none :=
  C8_second_code_not_consulted "A" "B" true ['4', 'f'] none (some ['Z', 'Z'])
    (ShotSequence.mk "A" "B" true
      (some (Serve.mk "A" true ['4', 'f'] none (some 4) true)) none
      (some (Rally.mk [Shot.mk "B" 'f' []])) false false false)
    (Serve.mk "A" true ['4', 'f'] none (some 4) true) (by rfl) rfl rfl

lemma from_code_full_second_strip (s r : String) (w : Bool)
    (fc y : List Char) :
    ShotSequence.from_code_full s r w fc (some y) =
      ShotSequence.from_code_full s r w fc (some (stripChars y)) := by
  cases hserve : Serve.from_code fc s true with
  | error e =>
      unfold ShotSequence.from_code_full
      rw [hserve]
  | ok p =>
      obtain ⟨fs, rem⟩ := p
      unfold ShotSequence.from_code_full
      rw [hserve]
      simp only [stripChars_idem]

lemma from_code_second_strip (s r : String) (w : Bool) (fc y : List Char) :
    ShotSequence.from_code s r w fc (some y) =
      ShotSequence.from_code s r w fc (some (stripChars y)) := by
  cases hst : stripChars fc with
  | nil =>
      rw [from_code_of_strip_nil hst, from_code_of_strip_nil hst]
      exact from_code_full_second_strip s r w [] y
  | cons a t =>
      cases t with
      | cons b t2 =>
          rw [from_code_of_strip_long hst, from_code_of_strip_long hst]
          exact from_code_full_second_strip s r w (a :: b :: t2) y
      | nil =>
          rw [from_code_of_strip_single hst, from_code_of_strip_single hst]
          by_cases h1 : a = 'S' ∨ a = 'R'
          · rw [if_pos h1, if_pos h1]
          · rw [if_neg h1, if_neg h1]
            by_cases h2 : a = 'P'
            · rw [if_pos h2, if_pos h2]
            · rw [if_neg h2, if_neg h2]
              by_cases h3 : a = 'Q'
              · rw [if_pos h3, if_pos h3]
              · rw [if_neg h3, if_neg h3]
                by_cases h4 : a ∈ possible_faults
                · rw [if_pos h4, if_pos h4]
                  exact from_code_full_second_strip s r w ['0', a] y
                · rw [if_neg h4, if_neg h4]

/-- C9: decoding is invariant under surrounding whitespace in the code
arguments: padding the first code with whitespace decodes like the
stripped first code, and padding the second code with whitespace decodes
like the stripped second code (in particular on the branch where the
first serve faulted, the only branch that reads it). -/
theorem C9_whitespace_invariance (server returner : String) (server_won : Bool)
    (fc sc2 : List Char) (sc : Option (List Char)) (w1 w2 w3 w4 : List Char)
    (h1 : ∀ c ∈ w1, isPySpace c = true) (h2 : ∀ c ∈ w2, isPySpace c = true)
    (h3 : ∀ c ∈ w3, isPySpace c = true)
    (h4 : ∀ c ∈ w4, isPySpace c = true) :
    (ShotSequence.from_code server returner server_won (w1 ++ fc ++ w2) sc =
      ShotSequence.from_code server returner server_won (stripChars fc) sc) ∧
    (ShotSequence.from_code server returner server_won fc
        (some (w3 ++ sc2 ++ w4)) =
      ShotSequence.from_code server returner server_won fc
        (some (stripChars sc2))) := by
  constructor
  · rw [from_code_strip server returner server_won (w1 ++ fc ++ w2) sc,
      stripChars_pad w1 w2 fc h1 h2]
  · rw [from_code_second_strip server returner server_won fc
      (w3 ++ sc2 ++ w4), stripChars_pad w3 w4 sc2 h3 h4]

/-- C9 witness: a leading space before the shortcut 'S' and whitespace
around a second-serve code '6' are ignored. -/
theorem C9_whitespace_invariance_witness :
    (ShotSequence.from_code "A" "B" true [' ', 'S'] none =
      ShotSequence.from_code "A" "B" true (stripChars ['S']) none) ∧
    (ShotSequence.from_code "A" "B" true ['S']
        (some ([' '] ++ ['6'] ++ ['\t'])) =
      ShotSequence.from_code "A" "B" true ['S'] (some (stripChars ['6']))) :=
  ⟨(C9_whitespace_invariance "A" "B" true ['S'] ['6'] none [' '] [] [' ']
      ['\t'] (by decide) (by decide) (by decide) (by decide)).1,
   (C9_whitespace_invariance "A" "B" true ['S'] ['6'] none [' '] [] [' ']
      ['\t'] (by decide) (by decide) (by decide) (by decide)).2⟩

/-! ### The bulk-loading claims -/

/-- C7: a row whose score string fails to parse is skipped and processing
continues with the remaining rows: the produced match list is the one for
the row list with that row removed. -/
theorem C7_bad_score_row_skipped {Stats : Type}
    (parse_score : String → String → String →
      Except BadFormattingException ParsedStringScore)
    (calculate_stats : String → String → Row → Stats)
    (pre post : List Row) (row : Row) (e : BadFormattingException)
    (h : parse_score row.score row.winner row.loser = Except.error e) :
    turn_into_matches parse_score calculate_stats (pre ++ row :: post) =
      turn_into_matches parse_score calculate_stats (pre ++ post) := by
  induction pre with
  | nil =>
      simp only [List.nil_append, turn_into_matches, h]
  | cons q qs ih =>
      simp only [List.cons_append, turn_into_matches, List.append_eq, ih]

/-- C7 witness: with a parser that rejects every score, a one-row list
produces the same matches as the empty list. -/
theorem C7_bad_score_row_skipped_witness :
    turn_into_matches
      (fun _ _ _ => Except.error (BadFormattingException.mk "bad"))
      (fun _ _ _ => (0 : Nat))
      [Row.mk "W" "L" "6-4" 0 "T" 1 none none 0 0] =
    turn_into_matches
      (fun _ _ _ => Except.error (BadFormattingException.mk "bad"))
      (fun _ _ _ => (0 : Nat)) [] :=
  C7_bad_score_row_skipped
    (fun _ _ _ => Except.error (BadFormattingException.mk "bad"))
    (fun _ _ _ => (0 : Nat)) [] []
    (Row.mk "W" "L" "6-4" 0 "T" 1 none none 0 0)
    (BadFormattingException.mk "bad") rfl

lemma turn_into_matches_sets_ge_two {Stats : Type}
    (parse_score : String → String → String →
      Except BadFormattingException ParsedStringScore)
    (calculate_stats : String → String → Row → Stats) :
    ∀ (rows : List Row) (m : CompletedMatch Stats),
      m ∈ turn_into_matches parse_score calculate_stats rows →
        2 ≤ m.score.sets.length := by
  intro rows
  induction rows with
  | nil =>
      intro m hm
      simp [turn_into_matches] at hm
  | cons row rest ih =>
      intro m hm
      simp only [turn_into_matches] at hm
      split at hm
      · exact ih m hm
      · split at hm
        · exact ih m hm
        · rename_i score hparse hlen
          rcases List.mem_cons.mp hm with rfl | hm2
          · simpa using Nat.le_of_not_lt hlen
          · exact ih m hm2

/-- C10: a row whose parsed score has fewer than two sets is silently
skipped — the produced match list is the one with that row removed — and
every match the loop ever yields carries a score with at least two
sets. -/
theorem C10_two_set_minimum {Stats : Type}
    (parse_score : String → String → String →
      Except BadFormattingException ParsedStringScore)
    (calculate_stats : String → String → Row → Stats)
    (pre post : List Row) (row : Row) (score : ParsedStringScore)
    (h : parse_score row.score row.winner row.loser = Except.ok score)
    (hlen : score.sets.length < 2) :
    (turn_into_matches parse_score calculate_stats (pre ++ row :: post) =
      turn_into_matches parse_score calculate_stats (pre ++ post)) ∧
    ∀ m ∈ turn_into_matches parse_score calculate_stats (pre ++ row :: post),
      2 ≤ m.score.sets.length := by
  constructor
  · induction pre with
    | nil =>
        simp only [List.nil_append, turn_into_matches, h, if_pos hlen]
    | cons q qs ih =>
        simp only [List.cons_append, turn_into_matches, List.append_eq, ih]
  · exact fun m hm =>
      turn_into_matches_sets_ge_two parse_score calculate_stats
        (pre ++ row :: post) m hm

/-- C10 witness: with a parser returning an empty set list, a one-row list
produces the same matches as the empty list. -/
theorem C10_two_set_minimum_witness :
    turn_into_matches
      (fun _ _ _ => Except.ok (ParsedStringScore.mk []))
      (fun _ _ _ => (0 : Nat))
      [Row.mk "W" "L" "6-4" 0 "T" 1 none none 0 0] =
    turn_into_matches
      (fun _ _ _ => Except.ok (ParsedStringScore.mk []))
      (fun _ _ _ => (0 : Nat)) [] :=
  (C10_two_set_minimum
    (fun _ _ _ => Except.ok (ParsedStringScore.mk []))
    (fun _ _ _ => (0 : Nat)) [] []
    (Row.mk "W" "L" "6-4" 0 "T" 1 none none 0 0)
    (ParsedStringScore.mk []) rfl (by decide)).1

end TData
